import Mathlib

/-!
Verification of the manifest-driven resource acquisition engine of
`core/manifest_handler.py` (class `ManifestHandler`).

The Python code is shallowly embedded:
* a manifest item (a JSON/YAML dictionary) becomes the structure `Item`,
  with `Option` fields for keys that may be absent and the Python
  `dict.get(k, default)` defaults made explicit at each use site;
* the filesystem is a map from path strings to optional byte contents
  (`FS`); a path "exists" when it is in the map;
* SHA-256 is abstracted as an explicit hex-digest function
  `hash : List Nat → String` passed to every function that hashes file
  contents (the streaming 4096-byte-block loop of `_verify_checksum`
  computes exactly the digest of the whole content, so the embedding
  applies `hash` to the full content);
* Python string operations used by the code are embedded as executable
  functions on `String.data`: `containsStr` (the `in` operator),
  `pyStrip` (`str.strip()`), `pySplitWs` (`str.split()`), `pyLower`
  (`str.lower()`);
* logging calls (`self.log`) are side-effect free for the properties
  considered and are dropped.
-/

/-- Python `needle in haystack` on lists of characters. -/
def containsSubList (needle : List Char) : List Char → Bool
  | [] => needle.isEmpty
  | c :: rest => needle.isPrefixOf (c :: rest) || containsSubList needle rest

/-- Python `needle in haystack` for strings. -/
def containsStr (haystack needle : String) : Bool :=
  containsSubList needle.data haystack.data

/-- Python `str.strip()`: drop whitespace from both ends. -/
def pyStrip (s : String) : String :=
  String.mk (((s.data.dropWhile Char.isWhitespace).reverse.dropWhile Char.isWhitespace).reverse)

/-- Helper for `pySplitWs`: accumulate the current (reversed) token. -/
def pySplitWsAux : List Char → List Char → List String
  | [], acc => if acc.isEmpty then [] else [String.mk acc.reverse]
  | c :: rest, acc =>
    if c.isWhitespace then
      if acc.isEmpty then pySplitWsAux rest [] else String.mk acc.reverse :: pySplitWsAux rest []
    else pySplitWsAux rest (c :: acc)

/-- Python `str.split()` with no argument: split on whitespace runs,
discarding empty tokens. -/
def pySplitWs (s : String) : List String := pySplitWsAux s.data []

/-- Python `str.lower()` (character-wise). -/
def pyLower (s : String) : String := String.mk (s.data.map Char.toLower)

/-- One manifest item (`item` dictionary of the Python code).  Keys that
`validate_manifest` requires (`name`, `type`, `source`) are plain fields;
all other keys are `Option`s (absent key = `none`) or carry the default
the Python code supplies via `dict.get`. -/
structure Item where
  name : String
  type : String
  source : String
  path : Option String := none
  path_base : Option String := none
  required : Bool := false
  gated : Bool := false
  sha256 : Option String := none
  sha : Option String := none
  url : Option String := none
  ref : Option String := none
  dest : Option String := none
  install_requirements : Bool := false
  executable : Bool := false
  deriving Repr, DecidableEq

/-- The filesystem: a path exists iff `file` maps it to some byte content. -/
structure FS where
  file : String → Option (List Nat)

/-- The ambient directories of `ManifestHandler`/`resolve_path_base`:
the ComfyUI install root (`self.comfy_path`), the user home, the
platform temp and appdata directories, and the optional InstallTemp
root together with whether it exists on disk. -/
structure Env where
  comfy_path : String
  home : String
  temp : String
  appdata : String
  install_temp_path : Option String := none
  install_temp_exists : Bool := false

/-- `pathlib` `/` join. -/
def joinPath (a b : String) : String := a ++ "/" ++ b

/-- `ManifestHandler.resolve_path_base`.  The `absolute` branch returns a
placeholder root (the Python code returns `Path('/')`, replaced by the
item's own absolute path in `resolve_item_path`); the `install_temp`
branch falls back to the install root when the InstallTemp folder is
unavailable; unknown bases fall back to the install root. -/
def resolve_path_base (env : Env) (path_base : String) : String :=
  if path_base = "comfyui" then env.comfy_path
  else if path_base = "home" then env.home
  else if path_base = "temp" then env.temp
  else if path_base = "appdata" then env.appdata
  else if path_base = "absolute" then "/"
  else if path_base = "install_temp" then
    match env.install_temp_path with
    | some itp => if env.install_temp_exists then itp else env.comfy_path
    | none => env.comfy_path
  else env.comfy_path

/-- Body of `ManifestHandler.resolve_item_path` once the declared path
`dp` is known to be present: `path_base = item.get('path_base', 'comfyui')`;
absolute paths are used verbatim, others are joined onto the base. -/
def resolveDeclaredPath (env : Env) (item : Item) (dp : String) : String :=
  let pb := item.path_base.getD "comfyui"
  if pb = "absolute" then dp else joinPath (resolve_path_base env pb) dp

/-- `ManifestHandler.resolve_item_path`: `None` when the item has no
`path` key. -/
def resolve_item_path (env : Env) (item : Item) : Option String :=
  item.path.map (resolveDeclaredPath env item)

/-- Character-wise effect of
`str(target_path).replace('/', '_').replace('\\', '_')`: the two
sequential single-character replacements map both separators to `'_'`
and leave every other character unchanged. -/
def sepFlat (c : Char) : Char :=
  if c = '/' then '_' else if c = '\\' then '_' else c

/-- The flattening of `_get_partial_path`'s `safe_name` computation. -/
def flattenSep (s : String) : String := String.mk (s.data.map sepFlat)

/-- `ManifestHandler._get_partial_path`: the Partial-Transfer Store lives
in `comfy_path/.partial_downloads` and the entry for a declared target
path is its separator-flattened name with a `.partial` suffix. -/
def _get_partial_path (env : Env) (target_path : String) : String :=
  joinPath (joinPath env.comfy_path ".partial_downloads") (flattenSep target_path ++ ".partial")

/-- `ManifestHandler._verify_checksum`: `False` when the file is missing,
otherwise the SHA-256 hex digest of the content compared with the
expected digest.  Total: never an exception on a missing or mismatched
file. -/
def _verify_checksum (hash : List Nat → String) (fs : FS) (file_path : String)
    (expected_sha256 : String) : Bool :=
  match fs.file file_path with
  | none => false
  | some content => hash content == expected_sha256

/-- Python truthiness of `item.get(key)` for a string-valued key. -/
def truthyOpt (o : Option String) : Bool :=
  match o with
  | some s => s ≠ ""
  | none => false

/-- `item.get('sha256') or item.get('sha')` as used in
`check_existing_files`: the declared checksum, with empty strings and
absent keys falsy. -/
def declaredChecksum (item : Item) : Option String :=
  if truthyOpt item.sha256 then item.sha256
  else if truthyOpt item.sha then item.sha
  else none

/-- Derived per-item snapshot (`status` dictionary of
`check_existing_files`).  The Python `exists` key is `exists_` here
(`exists` is reserved in Lean). -/
structure FileStatus where
  exists_ : Bool
  valid : Bool
  needs_download : Bool
  reason : Option String
  partial_exists : Bool
  partial_size : Nat
  deriving Repr, DecidableEq

/-- The partial-download probe of `check_existing_files`: when resume is
enabled, look up the Partial-Transfer Store entry for the declared path
and report its existence and size. -/
def partialInfo (env : Env) (fs : FS) (resume : Bool) (dp : String) : Bool × Nat :=
  if resume then
    match fs.file (_get_partial_path env dp) with
    | some c => (true, c.length)
    | none => (false, 0)
  else (false, 0)

/-- Loop body of `ManifestHandler.check_existing_files` for an item that
has a declared path and a non-`bundled`, non-`pip`, non-`winget` source:
destination present and source `install_temp` → always re-copy;
destination present with a declared checksum → verify it; destination
present without one → trust it; destination absent → `missing`. -/
def checkItemWithPath (hash : List Nat → String) (env : Env) (fs : FS) (resume : Bool)
    (item : Item) (dp : String) : FileStatus :=
  if (fs.file (resolveDeclaredPath env item dp)).isSome then
    if item.source = "install_temp" then
      { exists_ := true, valid := false, needs_download := true,
        reason := some "install_temp_always_copy",
        partial_exists := (partialInfo env fs resume dp).1,
        partial_size := (partialInfo env fs resume dp).2 }
    else
      match declaredChecksum item with
      | some chk =>
        if _verify_checksum hash fs (resolveDeclaredPath env item dp) chk then
          { exists_ := true, valid := true, needs_download := false,
            reason := some "exists_and_valid",
            partial_exists := (partialInfo env fs resume dp).1,
            partial_size := (partialInfo env fs resume dp).2 }
        else
          { exists_ := true, valid := false, needs_download := true,
            reason := some "checksum_mismatch",
            partial_exists := (partialInfo env fs resume dp).1,
            partial_size := (partialInfo env fs resume dp).2 }
      | none =>
        { exists_ := true, valid := true, needs_download := false,
          reason := some "exists_no_checksum",
          partial_exists := (partialInfo env fs resume dp).1,
          partial_size := (partialInfo env fs resume dp).2 }
  else
    { exists_ := false, valid := false, needs_download := true,
      reason := some "missing",
      partial_exists := (partialInfo env fs resume dp).1,
      partial_size := (partialInfo env fs resume dp).2 }

/-- Loop body of `ManifestHandler.check_existing_files` for one item:
`none` when the loop produces no entry (`bundled` source, or no `path`
key), otherwise the `FileStatus` stored under the item's name. -/
def checkItem (hash : List Nat → String) (env : Env) (fs : FS) (resume : Bool)
    (item : Item) : Option FileStatus :=
  if item.source = "bundled" then none
  else if item.source = "pip" ∨ item.source = "winget" then
    some { exists_ := false, valid := false, needs_download := true,
           reason := some (item.source ++ "_package"),
           partial_exists := false, partial_size := 0 }
  else
    match item.path with
    | none => none
    | some dp => some (checkItemWithPath hash env fs resume item dp)

/-- One `existing[item['name']] = status` dictionary assignment. -/
def cefStep (hash : List Nat → String) (env : Env) (fs : FS) (resume : Bool)
    (m : String → Option FileStatus) (item : Item) : String → Option FileStatus :=
  fun n =>
    match checkItem hash env fs resume item with
    | none => m n
    | some st => if n = item.name then some st else m n

/-- `ManifestHandler.check_existing_files` (the computation behind the
memoized cache): the name-keyed status dictionary, with later items of
the same name overwriting earlier ones exactly as dictionary assignment
does. -/
def check_existing_files (hash : List Nat → String) (env : Env) (fs : FS) (resume : Bool)
    (items : List Item) : String → Option FileStatus :=
  items.foldl (cefStep hash env fs resume) (fun _ => none)

/-- Outcome of one `_download_item` call, as seen by the dispatch loops:
success, or an exception carrying its message string (`str(e)`). -/
inductive ItemResult
  | ok
  | fail (msg : String)
  deriving Repr, DecidableEq

/-- The two error classes that escape `_download_sequential` /
`_download_parallel` to the caller: a re-raised authentication-class
exception, or the wrapping `Exception` naming a failed required item. -/
inductive RunError
  | authError (msg : String)
  | requiredFailure (name msg : String)
  deriving Repr, DecidableEq

/-- The authentication-failure content test of the dispatch loops:
`"401" in str(e) or "403" in str(e) or "HF_TOKEN" in str(e)`. -/
def isAuthError (msg : String) : Bool :=
  containsStr msg "401" || containsStr msg "403" || containsStr msg "HF_TOKEN"

/-- Result of a dispatch run: the filesystem after all executed tasks,
the propagated fatal error (if any), the items whose tasks were actually
run (not cancelled), and the names of optional items whose failures were
logged as warnings. -/
structure RunOutcome where
  fs : FS
  error : Option RunError
  attempted : List Item
  warnings : List String

/-- The per-item loop shared verbatim by `_download_sequential` and the
`as_completed` consumer of `_download_parallel`: run the item's task
(`exec fs item verify` abstracts `_download_item` and returns the new
filesystem and the task outcome); on failure re-raise
authentication-class errors, raise a named error for required items, and
log-and-continue for optional items.  Stopping the recursion models both
the sequential `raise` and the parallel
`executor.shutdown(wait=False, cancel_futures=True)`: items after the
failure are never started. -/
def runExecLoop (exec : FS → Item → Bool → FS × ItemResult) (verify : Bool) :
    FS → List (Item × Option FileStatus) → RunOutcome
  | fs, [] => { fs := fs, error := none, attempted := [], warnings := [] }
  | fs, (item, _) :: rest =>
    match exec fs item verify with
    | (fs', ItemResult.ok) =>
      let r := runExecLoop exec verify fs' rest
      { fs := r.fs, error := r.error, attempted := item :: r.attempted, warnings := r.warnings }
    | (fs', ItemResult.fail msg) =>
      if isAuthError msg then
        { fs := fs', error := some (RunError.authError msg), attempted := [item], warnings := [] }
      else if item.required then
        { fs := fs', error := some (RunError.requiredFailure item.name msg),
          attempted := [item], warnings := [] }
      else
        let r := runExecLoop exec verify fs' rest
        { fs := r.fs, error := r.error, attempted := item :: r.attempted,
          warnings := item.name :: r.warnings }

/-- `ManifestHandler._download_sequential`: the work list is processed in
list order. -/
def _download_sequential (exec : FS → Item → Bool → FS × ItemResult) (verify : Bool)
    (fs : FS) (download_list : List (Item × Option FileStatus)) : RunOutcome :=
  runExecLoop exec verify fs download_list

/-- `ManifestHandler._download_parallel`: all tasks are submitted and
their results consumed in `as_completed` order; `order` models that
arbitrary completion order (the filesystem effects are linearized along
it). -/
def _download_parallel (exec : FS → Item → Bool → FS × ItemResult) (verify : Bool)
    (fs : FS)
    (order : List (Item × Option FileStatus) → List (Item × Option FileStatus))
    (download_list : List (Item × Option FileStatus)) : RunOutcome :=
  runExecLoop exec verify fs (order download_list)

/-- The work-list filter of `download_items`: drop `bundled` items; when
`skip_existing` holds and the status map has an entry for the item's
name, drop it iff its `needs_download` is false; each kept item is
paired with `existing.get(item['name'], {})` (`none` models the empty
default dictionary). -/
def downloadFilter (existing : String → Option FileStatus) (skip_existing : Bool)
    (items : List Item) : List (Item × Option FileStatus) :=
  items.filterMap fun item =>
    if item.source = "bundled" then none
    else if skip_existing then
      match existing item.name with
      | some st => if st.needs_download then some (item, some st) else none
      | none => some (item, none)
    else some (item, existing item.name)

/-- `ManifestHandler.download_items`: restrict to required items when
asked, compute the cached status map only when `skip_existing` is set
(`{}` otherwise), filter the work list, short-circuit on `dry_run`
after only logging, and otherwise dispatch in parallel when requested
and more than one item remains, sequentially otherwise. -/
def download_items (hash : List Nat → String) (env : Env) (fs : FS) (resume : Bool)
    (items : List Item) (exec : FS → Item → Bool → FS × ItemResult)
    (order : List (Item × Option FileStatus) → List (Item × Option FileStatus))
    (skip_existing required_only verify_checksums dry_run parallel : Bool) : RunOutcome :=
  let items_to_download := if required_only then items.filter (fun i => i.required) else items
  let existing := if skip_existing then check_existing_files hash env fs resume items
                  else fun _ => none
  let download_list := downloadFilter existing skip_existing items_to_download
  if dry_run then { fs := fs, error := none, attempted := [], warnings := [] }
  else if parallel && decide (1 < download_list.length) then
    _download_parallel exec verify_checksums fs order download_list
  else
    _download_sequential exec verify_checksums fs download_list

/-- The byte stream produced by `requests.get(...).iter_content`: either
it runs to completion delivering `bytes`, or it raises mid-stream after
only `written` bytes have been handed to the writer. -/
inductive DlStream
  | complete (bytes : List Nat)
  | failAfter (written : List Nat)
  deriving Repr, DecidableEq

/-- Observable outcome of `_download_from_url` on one item: the content
at the final destination path afterwards, the content of the item's
Partial-Transfer Store entry afterwards, whether a checksum verification
was actually performed, and whether the call returned without raising. -/
structure UrlOutcome where
  finalContent : Option (List Nat)
  partialContent : Option (List Nat)
  verified : Bool
  ok : Bool
  deriving Repr, DecidableEq

/-- `ManifestHandler._download_from_url` for one item.
`partialPrior`/`finalPrior` are the prior contents of the item's
Partial-Transfer Store entry and of its final destination path.
Faithful control flow: `initial_pos` is the partial size when resume is
on; the write mode is append exactly when resume is on, the server
supports ranges and a partial exists (otherwise the target is
truncated); the write target (`temp_path`) is the partial-store entry
when `self.resume_downloads` is set and the final path itself
otherwise; on stream completion the partial entry is moved to the final
path (resume only); verification runs iff the flag is set and a
checksum is declared, deleting the partial entry on success and raising
on mismatch. -/
def _download_from_url (hash : List Nat → String) (resume supportsResume : Bool)
    (partialPrior finalPrior : Option (List Nat)) (stream : DlStream)
    (verify_checksum : Bool) (item : Item) : UrlOutcome :=
  let initial_pos : Nat := if resume then (partialPrior.map List.length).getD 0 else 0
  let appendMode := resume && supportsResume && decide (0 < initial_pos)
  match stream with
  | DlStream.failAfter written =>
    let onDisk := if appendMode then partialPrior.getD [] ++ written else written
    if resume then
      { finalContent := finalPrior, partialContent := some onDisk,
        verified := false, ok := false }
    else
      { finalContent := some onDisk, partialContent := partialPrior,
        verified := false, ok := false }
  | DlStream.complete bytes =>
    let onDisk := if appendMode then partialPrior.getD [] ++ bytes else bytes
    let partialAfterMove := if resume then none else partialPrior
    match (if verify_checksum then declaredChecksum item else none) with
    | some chk =>
      if hash onDisk == chk then
        { finalContent := some onDisk, partialContent := none,
          verified := true, ok := true }
      else
        { finalContent := some onDisk, partialContent := partialAfterMove,
          verified := true, ok := false }
    | none =>
      { finalContent := some onDisk, partialContent := partialAfterMove,
        verified := false, ok := true }

/-- The acquirer chosen by `_download_item`, together with the
`verify_checksum` flag it is handed where it accepts one. -/
inductive Dispatch
  | huggingface (verify : Bool)
  | git
  | url (verify : Bool)
  | localCopy
  | pip
  | installTempPip
  | installTempCopy
  | winget
  | unknown
  deriving Repr, DecidableEq

/-- `ManifestHandler._download_item`: `should_verify` is
`verify_checksum and item.get('type') == 'model'`; the source string
selects the acquirer, with `install_temp` routing `pip_package`-typed
items to the pip installer. -/
def _download_item (item : Item) (verify_checksum : Bool) : Dispatch :=
  let should_verify := verify_checksum && (item.type == "model")
  if item.source = "huggingface" then Dispatch.huggingface should_verify
  else if item.source = "git" then Dispatch.git
  else if item.source = "url" then Dispatch.url should_verify
  else if item.source = "local" then Dispatch.localCopy
  else if item.source = "pip" then Dispatch.pip
  else if item.source = "install_temp" then
    if item.type = "pip_package" then Dispatch.installTempPip else Dispatch.installTempCopy
  else if item.source = "winget" then Dispatch.winget
  else Dispatch.unknown

/-- The checksum-verification flag an acquirer receives: only the
HuggingFace and URL acquirers take one; every other acquirer performs no
post-download checksum verification. -/
def dispatchVerifyFlag : Dispatch → Option Bool
  | Dispatch.huggingface v => some v
  | Dispatch.url v => some v
  | _ => none

/-- The git subprocesses `_download_from_git` and its helpers can spawn
(`resetHard true` is `git reset --hard origin/<ref>`, `resetHard false`
the plain-ref fallback; `cloneDefault` is the retry without
`--branch`). -/
inductive GitCmd
  | revParse
  | lsRemote
  | fetch
  | checkoutCmd
  | resetHard (origin : Bool)
  | clone
  | cloneDefault
  deriving Repr, DecidableEq

/-- The external facts a `_download_from_git` run observes: destination
state, the stdout of `git rev-parse HEAD` and `git ls-remote url ref`
(`none` = the subprocess raised), and success flags for each mutating
subprocess and for the optional requirements install. -/
structure GitWorld where
  localExists : Bool
  isGitRepo : Bool
  revParse : Option String
  lsRemote : Option String
  fetchOk : Bool := true
  checkoutOk : Bool := true
  resetOriginOk : Bool := true
  resetRefOk : Bool := true
  cloneOk : Bool := true
  cloneDefaultOk : Bool := true
  reqFileExists : Bool := false
  pipOk : Bool := true

/-- Result of a `_download_from_git` run: the subprocesses invoked in
order, the appends to `downloaded_items` and `skipped_items`, and the
return value (`none` = an exception propagated). -/
structure GitResult where
  cmds : List GitCmd
  downloaded : List Item
  skipped : List Item
  ret : Option Bool
  deriving Repr, DecidableEq

/-- Prefix already-invoked subprocesses onto a continuation's result. -/
def prependCmds (cs : List GitCmd) (r : GitResult) : GitResult :=
  { r with cmds := cs ++ r.cmds }

/-- `_install_requirements_if_needed` raises iff the item asks for a
requirements install, a `requirements.txt` exists, pip fails, and the
item is required (otherwise failures are warnings). -/
def reqRaises (w : GitWorld) (item : Item) : Bool :=
  item.install_requirements && w.reqFileExists && !w.pipOk && item.required

/-- `ManifestHandler._git_clone_fresh`: shallow one-branch clone; if the
branch-specific clone fails and the ref is `main`/`master`, retry
without `--branch`; on success append to `downloaded_items` and run the
optional requirements install. -/
def _git_clone_fresh (w : GitWorld) (item : Item) : GitResult :=
  let ref := item.ref.getD "main"
  if w.cloneOk then
    { cmds := [GitCmd.clone], downloaded := [item], skipped := [],
      ret := if reqRaises w item then none else some true }
  else if ref = "main" ∨ ref = "master" then
    if w.cloneDefaultOk then
      { cmds := [GitCmd.clone, GitCmd.cloneDefault], downloaded := [item], skipped := [],
        ret := if reqRaises w item then none else some true }
    else
      { cmds := [GitCmd.clone, GitCmd.cloneDefault], downloaded := [], skipped := [], ret := none }
  else
    { cmds := [GitCmd.clone], downloaded := [], skipped := [], ret := none }

/-- `ManifestHandler._git_update_existing`: fetch, checkout, hard-reset
to `origin/<ref>` falling back to the plain ref; any subprocess failure
falls back to removal plus a fresh clone; on success append to
`downloaded_items` and run the optional requirements install. -/
def _git_update_existing (w : GitWorld) (item : Item) : GitResult :=
  if !w.fetchOk then
    prependCmds [GitCmd.fetch] (_git_clone_fresh w item)
  else if !w.checkoutOk then
    prependCmds [GitCmd.fetch, GitCmd.checkoutCmd] (_git_clone_fresh w item)
  else if w.resetOriginOk then
    { cmds := [GitCmd.fetch, GitCmd.checkoutCmd, GitCmd.resetHard true],
      downloaded := [item], skipped := [],
      ret := if reqRaises w item then none else some true }
  else if w.resetRefOk then
    { cmds := [GitCmd.fetch, GitCmd.checkoutCmd, GitCmd.resetHard true, GitCmd.resetHard false],
      downloaded := [item], skipped := [],
      ret := if reqRaises w item then none else some true }
  else
    prependCmds [GitCmd.fetch, GitCmd.checkoutCmd, GitCmd.resetHard true, GitCmd.resetHard false]
      (_git_clone_fresh w item)

/-- `ManifestHandler._download_from_git`: fresh clone when the
destination is absent or not a git repository; otherwise compare
`git rev-parse HEAD` (stripped) against the first whitespace token of
`git ls-remote url ref` — equal commits skip the item (recorded in
`skipped_items`, return `False`, no further subprocess), different
commits update; empty `ls-remote` output re-clones; a failing query
subprocess (or the `IndexError` on token extraction) falls through to
the update path. -/
def _download_from_git (w : GitWorld) (item : Item) : GitResult :=
  if !w.localExists then _git_clone_fresh w item
  else if !w.isGitRepo then _git_clone_fresh w item
  else
    match w.revParse with
    | none => prependCmds [GitCmd.revParse] (_git_update_existing w item)
    | some out =>
      match w.lsRemote with
      | none => prependCmds [GitCmd.revParse, GitCmd.lsRemote] (_git_update_existing w item)
      | some rout =>
        if rout ≠ "" then
          match pySplitWs rout with
          | [] => prependCmds [GitCmd.revParse, GitCmd.lsRemote] (_git_update_existing w item)
          | remote_commit :: _ =>
            if pyStrip out = remote_commit then
              { cmds := [GitCmd.revParse, GitCmd.lsRemote], downloaded := [],
                skipped := [item], ret := some false }
            else
              prependCmds [GitCmd.revParse, GitCmd.lsRemote] (_git_update_existing w item)
        else
          prependCmds [GitCmd.revParse, GitCmd.lsRemote] (_git_clone_fresh w item)

/-- `dest_path = item.get('dest', '') or item.get('path', '')` of
`custom_nodes_were_downloaded`. -/
def destPathOf (item : Item) : String :=
  let d := item.dest.getD ""
  if d ≠ "" then d else item.path.getD ""

/-- Per-item test of `custom_nodes_were_downloaded`: type is
`custom_node`, or `'custom_nodes' in dest_path.lower()`. -/
def isCustomNodeItem (item : Item) : Bool :=
  (item.type == "custom_node") || containsStr (pyLower (destPathOf item)) "custom_nodes"

/-- `ManifestHandler.custom_nodes_were_downloaded`: scans only
`self.downloaded_items`; `skipped_items` is carried to show the result
never depends on it. -/
def custom_nodes_were_downloaded (downloaded_items skipped_items : List Item) : Bool :=
  downloaded_items.any isCustomNodeItem

/-- A tiny executable digest function used to instantiate witnesses (the
decimal length of the content); the claim theorems are proved for every
digest function `hash`. -/
def hashLen (content : List Nat) : String := toString content.length

/-- Concrete environment for witnesses. -/
def envEx : Env :=
  { comfy_path := "C:/ComfyUI", home := "/home/user", temp := "/tmp", appdata := "/appdata" }

/-- Concrete URL-sourced model item for witnesses: `hashLen [1, 2, 3] = "3"`
matches its declared checksum. -/
def itemModelEx : Item :=
  { name := "m1", type := "model", source := "url", path := some "models/m.bin",
    url := some "https://example.com/m.bin", sha256 := some "3" }

/-- Concrete pip-sourced item for witnesses. -/
def itemPipEx : Item := { name := "p1", type := "pip_package", source := "pip" }

/-- Concrete install_temp-sourced item for witnesses. -/
def itemTempEx : Item :=
  { name := "t1", type := "file", source := "install_temp", path := some "t.txt" }

/-- Concrete URL-sourced item without a `path` key for witnesses. -/
def itemNoPathEx : Item := { name := "n1", type := "file", source := "url" }

/-- Concrete manifest item list for witnesses. -/
def itemsEx : List Item := [itemModelEx, itemPipEx, itemTempEx]

/-- Concrete filesystem for witnesses: only the model file exists. -/
def fsEx : FS := ⟨fun p => if p = "C:/ComfyUI/models/m.bin" then some [1, 2, 3] else none⟩

/-- C4 counterexample: with resume downloads disabled
(`resume_downloads=False`, mode `'wb'`, `temp_path = local_path`), the
URL acquirer streams straight into the final destination path, so a
mid-stream failure creates a half-written file there: the claim that the
final path is never created or modified on a mid-stream raise is false
for this URL-sourced item. -/
theorem c4_counterexample :
    (_download_from_url hashLen false false none none (DlStream.failAfter [7])
        true itemModelEx).finalContent = some [7]
    ∧ (some [7] : Option (List Nat)) ≠ none := by
  constructor
  · decide
  · decide

/-- C4 (amended): when resume downloads are enabled the URL acquirer
writes the stream through the Partial-Transfer Store entry and moves it
to the final destination only after the stream completes, so a download
that raises mid-stream leaves the content at the final destination path
exactly as it was. -/
theorem c4_amended_resume_protects_final (hash : List Nat → String)
    (supportsResume : Bool) (partialPrior finalPrior : Option (List Nat))
    (written : List Nat) (verify_checksum : Bool) (item : Item) :
    (_download_from_url hash true supportsResume partialPrior finalPrior
        (DlStream.failAfter written) verify_checksum item).finalContent = finalPrior := by
  unfold _download_from_url
  simp

/-- C5: for every manifest, filesystem and combination of the other
flags, `download_items` with `dry_run = true` short-circuits after
filtering: the filesystem is returned unchanged and no item task is
dispatched. -/
theorem c5_dry_run_mutates_nothing (hash : List Nat → String) (env : Env) (fs : FS)
    (resume : Bool) (items : List Item) (exec : FS → Item → Bool → FS × ItemResult)
    (order : List (Item × Option FileStatus) → List (Item × Option FileStatus))
    (skip_existing required_only verify_checksums parallel : Bool) :
    download_items hash env fs resume items exec order
        skip_existing required_only verify_checksums true parallel
      = { fs := fs, error := none, attempted := [], warnings := [] } := rfl

/-- C7: the restart-signal predicate is true iff `downloaded_items`
contains an item of type `custom_node` or whose destination path
(lower-cased) contains `custom_nodes`; it never depends on
`skipped_items`, and is false whenever nothing was downloaded. -/
theorem c7_restart_signal (downloaded skipped skipped2 : List Item) :
    (custom_nodes_were_downloaded downloaded skipped = true ↔
      ∃ item ∈ downloaded, item.type = "custom_node" ∨
        containsStr (pyLower (destPathOf item)) "custom_nodes" = true)
    ∧ custom_nodes_were_downloaded downloaded skipped
        = custom_nodes_were_downloaded downloaded skipped2
    ∧ custom_nodes_were_downloaded [] skipped = false := by
  refine ⟨?_, rfl, rfl⟩
  simp [custom_nodes_were_downloaded, List.any_eq_true, isCustomNodeItem, Bool.or_eq_true,
    beq_iff_eq]

/-- C9: in `_download_item`, only the HuggingFace and URL acquirers are
handed a checksum-verification flag, and (with `verify_checksums` on)
that flag is set iff the item's type is `model`; every other acquirer
receives no flag, and the URL acquirer with its flag off performs no
checksum verification even when a digest is declared. -/
theorem c9_model_type_gates_verification :
    (∀ item : Item,
        dispatchVerifyFlag (_download_item item true) = none
        ∨ dispatchVerifyFlag (_download_item item true) = some (item.type == "model"))
    ∧ (∀ item : Item,
        dispatchVerifyFlag (_download_item { item with source := "url" } true)
            = some (item.type == "model")
        ∧ dispatchVerifyFlag (_download_item { item with source := "huggingface" } true)
            = some (item.type == "model"))
    ∧ (∀ (hash : List Nat → String) (resume supportsResume : Bool)
        (partialPrior finalPrior : Option (List Nat)) (stream : DlStream) (item : Item),
        (_download_from_url hash resume supportsResume partialPrior finalPrior
            stream false item).verified = false) := by
  refine ⟨?_, ?_, ?_⟩
  · intro item
    by_cases h1 : item.source = "huggingface"
    · exact Or.inr (by simp [_download_item, h1, dispatchVerifyFlag])
    by_cases h2 : item.source = "git"
    · exact Or.inl (by simp [_download_item, h1, h2, dispatchVerifyFlag])
    by_cases h3 : item.source = "url"
    · exact Or.inr (by simp [_download_item, h1, h2, h3, dispatchVerifyFlag])
    by_cases h4 : item.source = "local"
    · exact Or.inl (by simp [_download_item, h1, h2, h3, h4, dispatchVerifyFlag])
    by_cases h5 : item.source = "pip"
    · exact Or.inl (by simp [_download_item, h1, h2, h3, h4, h5, dispatchVerifyFlag])
    by_cases h6 : item.source = "install_temp"
    · refine Or.inl ?_
      by_cases ht : item.type = "pip_package" <;>
        simp [_download_item, h1, h2, h3, h4, h5, h6, ht, dispatchVerifyFlag]
    by_cases h7 : item.source = "winget"
    · exact Or.inl (by simp [_download_item, h1, h2, h3, h4, h5, h6, h7, dispatchVerifyFlag])
    · exact Or.inl (by simp [_download_item, h1, h2, h3, h4, h5, h6, h7, dispatchVerifyFlag])
  · intro item
    constructor <;> simp [_download_item, dispatchVerifyFlag]
  · intro hash resume supportsResume partialPrior finalPrior stream item
    cases stream <;> cases resume <;> simp [_download_from_url]

/-- The reason/needs_download invariant for the path-carrying branch of
the status computation. -/
theorem checkItemWithPath_inv (hash : List Nat → String) (env : Env) (fs : FS)
    (resume : Bool) (item : Item) (dp : String) :
    (checkItemWithPath hash env fs resume item dp).needs_download = false ↔
      ((checkItemWithPath hash env fs resume item dp).reason = some "exists_and_valid"
        ∨ (checkItemWithPath hash env fs resume item dp).reason = some "exists_no_checksum") := by
  unfold checkItemWithPath
  split
  · split
    · simp
    · split
      · split
        · simp
        · simp
      · simp
  · simp

theorem checkItem_inv (hash : List Nat → String) (env : Env) (fs : FS) (resume : Bool)
    (item : Item) (st : FileStatus)
    (h : checkItem hash env fs resume item = some st) :
    st.needs_download = false ↔
      (st.reason = some "exists_and_valid" ∨ st.reason = some "exists_no_checksum") := by
  unfold checkItem at h
  split at h
  · exact Option.noConfusion h
  split at h
  · next hpw =>
    injection h with h1
    subst h1
    rcases hpw with hs | hs <;> rw [hs] <;> decide
  split at h
  · exact Option.noConfusion h
  · injection h with h1
    subst h1
    exact checkItemWithPath_inv hash env fs resume item _

/-- Every entry of the map `check_existing_files` returns was produced by
`checkItem` on some manifest item carrying that name (dictionary
assignment: later items overwrite earlier ones). -/
theorem check_existing_files_entry (hash : List Nat → String) (env : Env) (fs : FS)
    (resume : Bool) (items : List Item) :
    ∀ (acc : String → Option FileStatus) (n : String) (st : FileStatus),
      List.foldl (cefStep hash env fs resume) acc items n = some st →
      acc n = some st ∨
        ∃ item ∈ items, item.name = n ∧ checkItem hash env fs resume item = some st := by
  induction items with
  | nil => exact fun acc n st h => Or.inl h
  | cons i is ih =>
    intro acc n st h
    rw [List.foldl_cons] at h
    rcases ih _ n st h with h' | ⟨it, hm, hn, hc⟩
    · cases hci : checkItem hash env fs resume i with
      | none =>
        simp only [cefStep, hci] at h'
        exact Or.inl h'
      | some st' =>
        simp only [cefStep, hci] at h'
        by_cases hni : n = i.name
        · rw [if_pos hni] at h'
          exact Or.inr ⟨i, List.mem_cons_self i is, hni.symm,
            hci.trans (congrArg some (Option.some.inj h'))⟩
        · rw [if_neg hni] at h'
          exact Or.inl h'
    · exact Or.inr ⟨it, List.mem_cons_of_mem i hm, hn, hc⟩

/-- C1: for every item with a declared checksum (`sha256` or `sha`) whose
source is none of `bundled`/`pip`/`winget`/`install_temp` and whose
resolved path exists, `check_existing_files`'s per-item status has
`needs_download = false` iff the file's digest equals the declared
digest (reason `exists_and_valid`), and on mismatch it has
`needs_download = true` with reason `checksum_mismatch`; moreover the
verifier `_verify_checksum` returns `false` (it does not raise) on a
missing or mismatched file. -/
theorem c1_checksum_decides_needs_download (hash : List Nat → String) (env : Env)
    (fs : FS) (resume : Bool) (item : Item) (dp chk : String) (content : List Nat)
    (hb : item.source ≠ "bundled") (hp : item.source ≠ "pip")
    (hw : item.source ≠ "winget") (ht : item.source ≠ "install_temp")
    (hpath : item.path = some dp)
    (hchk : declaredChecksum item = some chk)
    (hfile : fs.file (resolveDeclaredPath env item dp) = some content) :
    (∃ st, checkItem hash env fs resume item = some st ∧
      (st.needs_download = false ↔ hash content = chk) ∧
      (hash content = chk → st.reason = some "exists_and_valid" ∧ st.valid = true) ∧
      (hash content ≠ chk → st.needs_download = true ∧ st.reason = some "checksum_mismatch"))
    ∧ (∀ q c, fs.file q = none → _verify_checksum hash fs q c = false)
    ∧ (∀ q c d, fs.file q = some d → hash d ≠ c → _verify_checksum hash fs q c = false) := by
  refine ⟨?_, ?_, ?_⟩
  · have hsw : ¬(item.source = "pip" ∨ item.source = "winget") := by
      rintro (h | h) <;> [exact hp h; exact hw h]
    have hck : checkItem hash env fs resume item
        = some (checkItemWithPath hash env fs resume item dp) := by
      unfold checkItem
      rw [if_neg hb, if_neg hsw, hpath]
    have hv : _verify_checksum hash fs (resolveDeclaredPath env item dp) chk
        = (hash content == chk) := by
      unfold _verify_checksum
      rw [hfile]
    by_cases hc : hash content = chk
    · have hwp : checkItemWithPath hash env fs resume item dp =
          { exists_ := true, valid := true, needs_download := false,
            reason := some "exists_and_valid",
            partial_exists := (partialInfo env fs resume dp).1,
            partial_size := (partialInfo env fs resume dp).2 } := by
        unfold checkItemWithPath
        simp [hfile, ht, hchk, hv, hc]
      exact ⟨_, hck.trans (congrArg some hwp), by simp [hc], fun _ => ⟨rfl, rfl⟩,
        fun hne => absurd hc hne⟩
    · have hwp : checkItemWithPath hash env fs resume item dp =
          { exists_ := true, valid := false, needs_download := true,
            reason := some "checksum_mismatch",
            partial_exists := (partialInfo env fs resume dp).1,
            partial_size := (partialInfo env fs resume dp).2 } := by
        unfold checkItemWithPath
        simp [hfile, ht, hchk, hv, hc]
      exact ⟨_, hck.trans (congrArg some hwp), by simp [hc], fun heq => absurd heq hc,
        fun _ => ⟨rfl, rfl⟩⟩
  · intro q c hq
    unfold _verify_checksum
    rw [hq]
  · intro q c d hq hne
    unfold _verify_checksum
    rw [hq]
    simpa using hne

/-- C1 witness: the concrete model item of `itemsEx` on the concrete
filesystem `fsEx`, whose digest matches the declared checksum. -/
theorem c1_checksum_decides_needs_download_witness :
    itemModelEx.path = some "models/m.bin"
    ∧ declaredChecksum itemModelEx = some "3"
    ∧ fsEx.file (resolveDeclaredPath envEx itemModelEx "models/m.bin") = some [1, 2, 3]
    ∧ ∃ st, checkItem hashLen envEx fsEx true itemModelEx = some st ∧
        (st.needs_download = false ↔ hashLen [1, 2, 3] = "3") := by
  refine ⟨rfl, by decide, by decide, ?_⟩
  obtain ⟨⟨st, h1, h2, _⟩, _, _⟩ :=
    c1_checksum_decides_needs_download hashLen envEx fsEx true itemModelEx
      "models/m.bin" "3" [1, 2, 3] (by decide) (by decide) (by decide) (by decide)
      rfl (by decide) (by decide)
  exact ⟨st, h1, h2⟩

/-- C2: in every map `check_existing_files` returns, every entry has
`needs_download = false` iff its reason is `exists_and_valid` or
`exists_no_checksum`; every `pip`/`winget` item is stored with
`needs_download = true` and reason `<source>_package`; and every
`install_temp` item that gets an entry has `needs_download = true` with
reason `install_temp_always_copy` (destination present) or `missing`
(destination absent). -/
theorem c2_needs_download_reason_invariant (hash : List Nat → String) (env : Env)
    (fs : FS) (resume : Bool) (items : List Item) :
    (∀ n st, check_existing_files hash env fs resume items n = some st →
      (st.needs_download = false ↔
        (st.reason = some "exists_and_valid" ∨ st.reason = some "exists_no_checksum")))
    ∧ (∀ item : Item, item.source = "pip" ∨ item.source = "winget" →
        checkItem hash env fs resume item =
          some { exists_ := false, valid := false, needs_download := true,
                 reason := some (item.source ++ "_package"),
                 partial_exists := false, partial_size := 0 })
    ∧ (∀ item st, item.source = "install_temp" →
        checkItem hash env fs resume item = some st →
          st.needs_download = true ∧
            (st.reason = some "install_temp_always_copy" ∨ st.reason = some "missing")) := by
  refine ⟨?_, ?_, ?_⟩
  · intro n st h
    rcases check_existing_files_entry hash env fs resume items _ n st h with h' | ⟨it, _, _, hc⟩
    · exact Option.noConfusion h'
    · exact checkItem_inv hash env fs resume it st hc
  · rintro item (h | h) <;> simp [checkItem, h]
  · intro item st hsrc h
    unfold checkItem at h
    rw [if_neg (by simp [hsrc]), if_neg (by simp [hsrc])] at h
    cases hpath : item.path with
    | none =>
      rw [hpath] at h
      exact Option.noConfusion h
    | some dp =>
      rw [hpath] at h
      have h2 : checkItemWithPath hash env fs resume item dp = st := Option.some.inj h
      rw [← h2]
      unfold checkItemWithPath
      by_cases hex : (fs.file (resolveDeclaredPath env item dp)).isSome = true
      · rw [if_pos hex, if_pos hsrc]
        exact ⟨rfl, Or.inl rfl⟩
      · rw [if_neg hex]
        exact ⟨rfl, Or.inr rfl⟩

/-- C2 witness: the concrete manifest `itemsEx` evaluated on `fsEx`,
one application of each conjunct. -/
theorem c2_needs_download_reason_invariant_witness :
    (∃ st, check_existing_files hashLen envEx fsEx true itemsEx "m1" = some st ∧
      (st.needs_download = false ↔
        (st.reason = some "exists_and_valid" ∨ st.reason = some "exists_no_checksum")))
    ∧ checkItem hashLen envEx fsEx true itemPipEx =
        some { exists_ := false, valid := false, needs_download := true,
               reason := some "pip_package", partial_exists := false, partial_size := 0 }
    ∧ ∃ st, checkItem hashLen envEx fsEx true itemTempEx = some st ∧
        st.needs_download = true ∧
          (st.reason = some "install_temp_always_copy" ∨ st.reason = some "missing") := by
  refine ⟨?_, ?_, ?_⟩
  · refine ⟨_, rfl, ?_⟩
    exact (c2_needs_download_reason_invariant hashLen envEx fsEx true itemsEx).1 "m1" _ rfl
  · exact (c2_needs_download_reason_invariant hashLen envEx fsEx true itemsEx).2.1
      itemPipEx (Or.inl rfl)
  · refine ⟨_, rfl, ?_⟩
    exact (c2_needs_download_reason_invariant hashLen envEx fsEx true itemsEx).2.2
      itemTempEx _ rfl rfl

/-- An item with no `path` key and a non-`bundled`, non-`pip`,
non-`winget` source produces no status entry. -/
theorem checkItem_no_path (hash : List Nat → String) (env : Env) (fs : FS) (resume : Bool)
    (item : Item) (hb : item.source ≠ "bundled") (hp : item.source ≠ "pip")
    (hw : item.source ≠ "winget") (hpath : item.path = none) :
    checkItem hash env fs resume item = none := by
  unfold checkItem
  rw [if_neg hb, if_neg (by rintro (h | h) <;> [exact hp h; exact hw h]), hpath]

/-- C10: a non-`bundled` item whose source is neither `pip` nor `winget`
and that has no `path` key is omitted from the `check_existing_files`
map entirely (given its name is not reused by another item), and the
`download_items` filter therefore keeps it in the work list (paired with
the empty default status) even when `skip_existing` is set. -/
theorem c10_no_path_item_skipped_from_map (hash : List Nat → String) (env : Env)
    (fs : FS) (resume : Bool) (items : List Item) (item : Item)
    (hmem : item ∈ items)
    (hb : item.source ≠ "bundled") (hp : item.source ≠ "pip") (hw : item.source ≠ "winget")
    (hpath : item.path = none)
    (huniq : ∀ it ∈ items, it.name = item.name → it = item) :
    check_existing_files hash env fs resume items item.name = none
    ∧ (item, (none : Option FileStatus)) ∈
        downloadFilter (check_existing_files hash env fs resume items) true items := by
  have hnone : check_existing_files hash env fs resume items item.name = none := by
    cases hcef : check_existing_files hash env fs resume items item.name with
    | none => rfl
    | some st =>
      rcases check_existing_files_entry hash env fs resume items _ item.name st hcef with
        h' | ⟨it, hm, hn, hc⟩
      · exact Option.noConfusion h'
      · rw [huniq it hm hn] at hc
        rw [checkItem_no_path hash env fs resume item hb hp hw hpath] at hc
        exact Option.noConfusion hc
  refine ⟨hnone, ?_⟩
  rw [downloadFilter, List.mem_filterMap]
  refine ⟨item, hmem, ?_⟩
  rw [if_neg hb, if_pos rfl, hnone]

/-- C10 witness: a concrete manifest containing the path-less URL item
`itemNoPathEx` next to the model item. -/
theorem c10_no_path_item_skipped_from_map_witness :
    check_existing_files hashLen envEx fsEx true [itemNoPathEx, itemModelEx]
        itemNoPathEx.name = none
    ∧ (itemNoPathEx, (none : Option FileStatus)) ∈
        downloadFilter (check_existing_files hashLen envEx fsEx true [itemNoPathEx, itemModelEx])
          true [itemNoPathEx, itemModelEx] :=
  c10_no_path_item_skipped_from_map hashLen envEx fsEx true [itemNoPathEx, itemModelEx]
    itemNoPathEx (by decide) (by decide) (by decide) (by decide) rfl (by decide)

/-- C3: during dispatch, a per-item failure whose message carries an
authorization-failure signature (`401`/`403`/`HF_TOKEN`) propagates to
the caller whatever the item's `required` flag, stopping the run (and
cancelling not-yet-started tasks in parallel mode); any other failure on
a `required` item propagates as an error naming that item, likewise
stopping the run; any other failure on a non-required item is recorded
as a warning and the remaining items are still processed.  Stated for
`_download_sequential` on its work list and for `_download_parallel`
along its arbitrary completion order. -/
theorem c3_failure_propagation (exec : FS → Item → Bool → FS × ItemResult)
    (verify : Bool) (fs fs' : FS) (item : Item) (ost : Option FileStatus)
    (msg : String) (rest : List (Item × Option FileStatus))
    (hexec : exec fs item verify = (fs', ItemResult.fail msg)) :
    (isAuthError msg = true →
        _download_sequential exec verify fs ((item, ost) :: rest)
          = { fs := fs', error := some (RunError.authError msg),
              attempted := [item], warnings := [] })
    ∧ (isAuthError msg = false → item.required = true →
        _download_sequential exec verify fs ((item, ost) :: rest)
          = { fs := fs', error := some (RunError.requiredFailure item.name msg),
              attempted := [item], warnings := [] })
    ∧ (isAuthError msg = false → item.required = false →
        _download_sequential exec verify fs ((item, ost) :: rest)
          = { fs := (_download_sequential exec verify fs' rest).fs,
              error := (_download_sequential exec verify fs' rest).error,
              attempted := item :: (_download_sequential exec verify fs' rest).attempted,
              warnings := item.name :: (_download_sequential exec verify fs' rest).warnings })
    ∧ (∀ (download_list : List (Item × Option FileStatus))
        (order : List (Item × Option FileStatus) → List (Item × Option FileStatus)),
        order download_list = (item, ost) :: rest →
        (isAuthError msg = true →
            _download_parallel exec verify fs order download_list
              = { fs := fs', error := some (RunError.authError msg),
                  attempted := [item], warnings := [] })
        ∧ (isAuthError msg = false → item.required = true →
            _download_parallel exec verify fs order download_list
              = { fs := fs', error := some (RunError.requiredFailure item.name msg),
                  attempted := [item], warnings := [] })
        ∧ (isAuthError msg = false → item.required = false →
            (_download_parallel exec verify fs order download_list).error
                = (runExecLoop exec verify fs' rest).error
              ∧ (_download_parallel exec verify fs order download_list).attempted
                = item :: (runExecLoop exec verify fs' rest).attempted
              ∧ (_download_parallel exec verify fs order download_list).warnings
                = item.name :: (runExecLoop exec verify fs' rest).warnings)) := by
  have hstep : ∀ g : RunOutcome → Prop,
      (isAuthError msg = true →
        g { fs := fs', error := some (RunError.authError msg),
            attempted := [item], warnings := [] }) →
      (isAuthError msg = false → item.required = true →
        g { fs := fs', error := some (RunError.requiredFailure item.name msg),
            attempted := [item], warnings := [] }) →
      (isAuthError msg = false → item.required = false →
        g { fs := (runExecLoop exec verify fs' rest).fs,
            error := (runExecLoop exec verify fs' rest).error,
            attempted := item :: (runExecLoop exec verify fs' rest).attempted,
            warnings := item.name :: (runExecLoop exec verify fs' rest).warnings }) →
      g (runExecLoop exec verify fs ((item, ost) :: rest)) := by
    intro g ga gr go
    rw [runExecLoop]
    simp only [hexec]
    by_cases ha : isAuthError msg
    · rw [if_pos ha]
      exact ga ha
    · rw [if_neg ha]
      by_cases hr : item.required
      · rw [if_pos hr]
        exact gr (by simpa using ha) hr
      · rw [if_neg hr]
        exact go (by simpa using ha) (by simpa using hr)
  refine ⟨?_, ?_, ?_, ?_⟩
  · intro ha
    exact hstep (fun r => r = _) (fun _ => rfl) (fun h _ => by rw [h] at ha; cases ha)
      (fun h _ => by rw [h] at ha; cases ha)
  · intro ha hr
    refine hstep (fun r => r = _) (fun h => by rw [h] at ha; cases ha) (fun _ _ => rfl)
      (fun _ h => by rw [h] at hr; cases hr)
  · intro ha hr
    refine hstep (fun r => r = _) (fun h => by rw [h] at ha; cases ha)
      (fun _ h => by rw [h] at hr; cases hr) (fun _ _ => rfl)
  · intro download_list order horder
    unfold _download_parallel
    rw [horder]
    refine ⟨?_, ?_, ?_⟩
    · intro ha
      exact hstep (fun r => r = _) (fun _ => rfl) (fun h _ => by rw [h] at ha; cases ha)
        (fun h _ => by rw [h] at ha; cases ha)
    · intro ha hr
      exact hstep (fun r => r = _) (fun h => by rw [h] at ha; cases ha) (fun _ _ => rfl)
        (fun _ h => by rw [h] at hr; cases hr)
    · intro ha hr
      refine hstep (fun r => r.error = _ ∧ r.attempted = _ ∧ r.warnings = _)
        (fun h => by rw [h] at ha; cases ha) (fun _ h => by rw [h] at hr; cases hr)
        (fun _ _ => ⟨rfl, rfl, rfl⟩)

/-- Concrete task behavior for witnesses: every item fails with an
authorization-failure message. -/
def execFail401 : FS → Item → Bool → FS × ItemResult :=
  fun fs _ _ => (fs, ItemResult.fail "401 Client Error")

/-- Concrete task behavior for witnesses: every item fails with an
ordinary network error message. -/
def execFailNet : FS → Item → Bool → FS × ItemResult :=
  fun fs _ _ => (fs, ItemResult.fail "connection reset by peer")

/-- Concrete required item for witnesses. -/
def itemReqEx : Item :=
  { name := "r1", type := "file", source := "url", path := some "a.bin", required := true }

/-- Concrete optional item for witnesses. -/
def itemOptEx : Item :=
  { name := "o1", type := "file", source := "url", path := some "b.bin", required := false }

/-- C3 witness: the three propagation behaviors at concrete inputs — an
auth-signature failure on an optional item aborts, a network failure on
a required item aborts naming it, and a network failure on an optional
item lets the next item run; plus the parallel auth case. -/
theorem c3_failure_propagation_witness :
    _download_sequential execFail401 true fsEx [(itemOptEx, none)]
      = { fs := fsEx, error := some (RunError.authError "401 Client Error"),
          attempted := [itemOptEx], warnings := [] }
    ∧ _download_sequential execFailNet true fsEx [(itemReqEx, none)]
      = { fs := fsEx,
          error := some (RunError.requiredFailure itemReqEx.name "connection reset by peer"),
          attempted := [itemReqEx], warnings := [] }
    ∧ _download_sequential execFailNet true fsEx [(itemOptEx, none), (itemReqEx, none)]
      = { fs := (_download_sequential execFailNet true fsEx [(itemReqEx, none)]).fs,
          error := (_download_sequential execFailNet true fsEx [(itemReqEx, none)]).error,
          attempted :=
            itemOptEx :: (_download_sequential execFailNet true fsEx [(itemReqEx, none)]).attempted,
          warnings :=
            itemOptEx.name ::
              (_download_sequential execFailNet true fsEx [(itemReqEx, none)]).warnings }
    ∧ _download_parallel execFail401 true fsEx id [(itemReqEx, none)]
      = { fs := fsEx, error := some (RunError.authError "401 Client Error"),
          attempted := [itemReqEx], warnings := [] } := by
  refine ⟨?_, ?_, ?_, ?_⟩
  · exact (c3_failure_propagation execFail401 true fsEx fsEx itemOptEx none
      "401 Client Error" [] rfl).1 (by decide)
  · exact (c3_failure_propagation execFailNet true fsEx fsEx itemReqEx none
      "connection reset by peer" [] rfl).2.1 (by decide) rfl
  · exact (c3_failure_propagation execFailNet true fsEx fsEx itemOptEx none
      "connection reset by peer" [(itemReqEx, none)] rfl).2.2.1 (by decide) rfl
  · exact ((c3_failure_propagation execFail401 true fsEx fsEx itemReqEx none
      "401 Client Error" [] rfl).2.2.2 [(itemReqEx, none)] id rfl).1 (by decide)

/-- C6: when the destination of a git-sourced item exists and is a git
repository, and the local HEAD commit (stripped `git rev-parse` output)
equals the remote commit for the declared ref (first whitespace token of
non-empty `git ls-remote` output), `_download_from_git` runs only the
two read-only query subprocesses — no fetch, checkout, reset or clone —
appends the item to `skipped_items` and not to `downloaded_items`, and
returns `False`. -/
theorem c6_git_skip_when_up_to_date (w : GitWorld) (item : Item) (out rout rc : String)
    (toks : List String)
    (h1 : w.localExists = true) (h2 : w.isGitRepo = true)
    (h3 : w.revParse = some out) (h4 : w.lsRemote = some rout) (h5 : rout ≠ "")
    (h6 : pySplitWs rout = rc :: toks) (h7 : pyStrip out = rc) :
    _download_from_git w item =
      { cmds := [GitCmd.revParse, GitCmd.lsRemote], downloaded := [],
        skipped := [item], ret := some false }
    ∧ ∀ c ∈ (_download_from_git w item).cmds,
        c ≠ GitCmd.fetch ∧ c ≠ GitCmd.checkoutCmd ∧ (∀ b, c ≠ GitCmd.resetHard b)
          ∧ c ≠ GitCmd.clone ∧ c ≠ GitCmd.cloneDefault := by
  have hmain : _download_from_git w item =
      { cmds := [GitCmd.revParse, GitCmd.lsRemote], downloaded := [],
        skipped := [item], ret := some false } := by
    unfold _download_from_git
    rw [h1, h2]
    simp only [Bool.not_true, Bool.false_eq_true, if_false, h3, h4]
    rw [if_pos h5, h6]
    simp only
    rw [if_pos h7]
  refine ⟨hmain, ?_⟩
  rw [hmain]
  intro c hc
  rcases List.mem_cons.mp hc with rfl | hc'
  · exact ⟨by decide, by decide, fun b => by cases b <;> decide, by decide, by decide⟩
  rcases List.mem_cons.mp hc' with rfl | hc''
  · exact ⟨by decide, by decide, fun b => by cases b <;> decide, by decide, by decide⟩
  · exact absurd hc'' (List.not_mem_nil c)

/-- Concrete git world for the C6 witness: repository present, HEAD
equal to the remote commit for the ref. -/
def gitWorldEx : GitWorld :=
  { localExists := true, isGitRepo := true,
    revParse := some "abc123\n",
    lsRemote := some "abc123\trefs/heads/main\n" }

/-- Concrete git-sourced item for witnesses. -/
def itemGitEx : Item :=
  { name := "g1", type := "custom_node", source := "git",
    path := some "custom_nodes/g1", url := some "https://example.com/g1.git" }

/-- C6 witness: the concrete up-to-date repository is skipped with only
the two query subprocesses run. -/
theorem c6_git_skip_when_up_to_date_witness :
    pyStrip "abc123\n" = "abc123"
    ∧ pySplitWs "abc123\trefs/heads/main\n" = ["abc123", "refs/heads/main"]
    ∧ _download_from_git gitWorldEx itemGitEx =
        { cmds := [GitCmd.revParse, GitCmd.lsRemote], downloaded := [],
          skipped := [itemGitEx], ret := some false } := by
  refine ⟨by decide, by decide, ?_⟩
  exact (c6_git_skip_when_up_to_date gitWorldEx itemGitEx "abc123\n"
    "abc123\trefs/heads/main\n" "abc123" ["refs/heads/main"]
    rfl rfl rfl rfl (by decide) (by decide) (by decide)).1

/-- C8 counterexample: the separator-flattening of `_get_partial_path`
aliases `'/'` with `'_'`, so the two distinct declared paths `a/b` and
`a_b` derive the same Partial-Transfer Store filename — the mapping is
not injective. -/
theorem c8_counterexample :
    _get_partial_path envEx "a/b" = _get_partial_path envEx "a_b"
    ∧ ("a/b" : String) ≠ "a_b" := by
  constructor
  · decide
  · decide

/-- `sepFlat` is injective on characters that are neither `'_'` nor
`'\\'`. -/
theorem sepFlat_injOn (a b : Char) (ha1 : a ≠ '_') (ha2 : a ≠ '\\')
    (hb1 : b ≠ '_') (hb2 : b ≠ '\\') (h : sepFlat a = sepFlat b) : a = b := by
  unfold sepFlat at h
  by_cases h1 : a = '/'
  · by_cases h2 : b = '/'
    · rw [h1, h2]
    · rw [if_pos h1, if_neg h2, if_neg hb2] at h
      exact absurd h.symm hb1
  · by_cases h2 : b = '/'
    · rw [if_neg h1, if_neg ha2, if_pos h2] at h
      exact absurd h ha1
    · rw [if_neg h1, if_neg ha2, if_neg h2, if_neg hb2] at h
      exact h

/-- Character-wise maps by `sepFlat` are injective on underscore-free,
backslash-free character lists. -/
theorem map_sepFlat_inj : ∀ (l1 l2 : List Char),
    (∀ c ∈ l1, c ≠ '_' ∧ c ≠ '\\') → (∀ c ∈ l2, c ≠ '_' ∧ c ≠ '\\') →
    l1.map sepFlat = l2.map sepFlat → l1 = l2
  | [], [], _, _, _ => rfl
  | [], _ :: _, _, _, h => by simp at h
  | _ :: _, [], _, _, h => by simp at h
  | a :: l1, b :: l2, h1, h2, h => by
    simp only [List.map_cons, List.cons.injEq] at h
    have ha := h1 a (List.mem_cons_self a l1)
    have hb := h2 b (List.mem_cons_self b l2)
    have hab : a = b := sepFlat_injOn a b ha.1 ha.2 hb.1 hb.2 h.1
    have htl : l1 = l2 :=
      map_sepFlat_inj l1 l2 (fun c hc => h1 c (List.mem_cons_of_mem a hc))
        (fun c hc => h2 c (List.mem_cons_of_mem b hc)) h.2
    rw [hab, htl]

/-- C8 (amended): the Partial-Transfer Store filename derivation is
injective on declared destination paths that contain neither an
underscore nor a backslash (the flattening maps `'/'` and `'\\'` to
`'_'`, so only such characters can alias). -/
theorem c8_amended_partial_path_injective (env : Env) (p q : String)
    (hp : ∀ c ∈ p.data, c ≠ '_' ∧ c ≠ '\\')
    (hq : ∀ c ∈ q.data, c ≠ '_' ∧ c ≠ '\\')
    (hne : p ≠ q) :
    _get_partial_path env p ≠ _get_partial_path env q := by
  intro h
  apply hne
  have hd := congrArg String.data h
  unfold _get_partial_path joinPath at hd
  simp only [String.data_append, List.append_assoc] at hd
  have h3 := List.append_cancel_left
    (List.append_cancel_left (List.append_cancel_left (List.append_cancel_left hd)))
  have h4 : (flattenSep p).data = (flattenSep q).data := List.append_cancel_right h3
  have h5 : p.data.map sepFlat = q.data.map sepFlat := h4
  exact String.ext (map_sepFlat_inj p.data q.data hp hq h5)

/-- C8 witness: two distinct separator-containing paths without
underscores or backslashes derive distinct partial filenames. -/
theorem c8_amended_partial_path_injective_witness :
    (∀ c ∈ ("models/a.bin" : String).data, c ≠ '_' ∧ c ≠ '\\')
    ∧ (∀ c ∈ ("models/b.bin" : String).data, c ≠ '_' ∧ c ≠ '\\')
    ∧ ("models/a.bin" : String) ≠ "models/b.bin"
    ∧ _get_partial_path envEx "models/a.bin" ≠ _get_partial_path envEx "models/b.bin" :=
  ⟨by decide, by decide, by decide,
    c8_amended_partial_path_injective envEx "models/a.bin" "models/b.bin"
      (by decide) (by decide) (by decide)⟩
